import Mathlib

/-!
Shallow embedding of the iDAWi PR-management scripts
(`scripts/pr_manager.py`, `scripts/manage_prs.py`).

The scripts orchestrate an external `git` binary.  We model each git
invocation as an abstract command (`GitCmd`); an *environment*
(`GitEnv := GitCmd → GitRes`) is the oracle giving every invocation's
exit code and standard output.  Each Python function is translated into
a Lean function over such an environment, returning both its Python
return value and the ordered trace of operations it performed
(`TOp`: the git command or file write, annotated with the branch that
is checked out at the moment the operation runs, `none` when unknown).
`PyRes` distinguishes a normal return from an uncaught
`subprocess.CalledProcessError` raised by a `check=True` invocation.
-/

/-- Exit code and captured standard output of one external command
(`subprocess.CompletedProcess`). -/
structure GitRes where
  returncode : Int
  out : String
deriving Repr, DecidableEq

/-- One git invocation made by `pr_manager.py` (the argument vector after
`git -C <repo>`). -/
inductive GitCmd where
  | fetchAll
  | symbolicRef (r : String)
  | revParseVerify (r : String)
  | branchR
  | checkout (b : String)
  | checkoutNew (b base : String)
  | pull (remote b : String)
  | mergeNoCommit (ref : String)
  | merge (ref : String)
  | mergeAbort
  | statusShort
  | commit (msg : String)
  | push (remote b : String)
  | pushDelete (remote b : String)
  | add (path : String)
deriving Repr, DecidableEq

/-- The oracle: what each git invocation returns in this run. -/
def GitEnv : Type := GitCmd → GitRes

/-- The `conflict_info` dictionary serialized to `MERGE_CONFLICTS.json`
in `PRManager.create_conflict_branch`. -/
structure ConflictRecord where
  source_branch : String
  target_branch : String
  conflicting_files : List String
  resolution_instructions : List String
deriving Repr, DecidableEq

/-- An operation performed by the script: a git command or a file write
into the working tree. -/
inductive GitOp where
  | git : GitCmd → GitOp
  | writeFile : String → ConflictRecord → GitOp
deriving Repr, DecidableEq

/-- A traced operation together with the branch checked out when it runs
(`none` before the first successful checkout of the call). -/
structure TOp where
  op : GitOp
  current : Option String
deriving Repr, DecidableEq

/-- Normal return versus an uncaught `subprocess.CalledProcessError`
from a `check=True` invocation. -/
inductive PyRes (α : Type) where
  | ok : α → PyRes α
  | exn : PyRes α
deriving Repr, DecidableEq

/-- Python's whitespace test used by `str.strip()` (space, tab, newline,
carriage return, vertical tab, form feed). -/
def pyIsSpace (c : Char) : Bool :=
  c == ' ' || c == '\t' || c == '\n' || c == '\r' ||
  c == Char.ofNat 11 || c == Char.ofNat 12

/-- Python `s.strip()`: drop leading and trailing whitespace.
(Implemented over the character list so that concrete evaluations
reduce inside the kernel.) -/
def pyStrip (s : String) : String :=
  ((s.toList.dropWhile pyIsSpace).reverse.dropWhile pyIsSpace).reverse.asString

/-- Python `s.split(sep)` for a one-character separator: split at every
occurrence, keeping empty pieces (`"".split(sep) == [""]`). -/
def splitOnCharList (c : Char) : List Char → List (List Char)
  | [] => [[]]
  | x :: xs =>
    let r := splitOnCharList c xs
    if x == c then [] :: r
    else
      match r with
      | [] => [[x]]
      | y :: ys => (x :: y) :: ys

/-- Python `s.split(sep)` for a one-character separator, on strings. -/
def pySplit (s : String) (c : Char) : List String :=
  (splitOnCharList c s.toList).map List.asString

/-- Whether the first list starts with the second. -/
def listStartsWith : List Char → List Char → Bool
  | _, [] => true
  | [], _ :: _ => false
  | x :: xs, y :: ys => x == y && listStartsWith xs ys

/-- Python `s.startswith(p)`. -/
def pyStartsWith (s p : String) : Bool :=
  listStartsWith s.toList p.toList

/-- Python `p in s` (substring containment; the empty pattern is
contained everywhere). -/
def listHasSub : List Char → List Char → Bool
  | [], p => listStartsWith [] p
  | x :: xs, p => listStartsWith (x :: xs) p || listHasSub xs p

/-- Python `p in s`, on strings. -/
def containsSub (s pat : String) : Bool :=
  listHasSub s.toList pat.toList

/-- Python `s[n:]` (character-based slicing). -/
def pyDrop (s : String) (n : Nat) : String :=
  (s.toList.drop n).asString

/-- Fuel-indexed worker for `pyReplace`: replace each left-most,
non-overlapping occurrence of the non-empty pattern `p` by `r`.  The
fuel starts at the list length, which bounds the recursion depth, so
the definition is structural and kernel-reducible. -/
def listReplaceAux (p r : List Char) : Nat → List Char → List Char
  | _, [] => []
  | 0, l => l
  | fuel + 1, x :: xs =>
    if !p.isEmpty && listStartsWith (x :: xs) p then
      r ++ listReplaceAux p r fuel (List.drop (p.length - 1) xs)
    else
      x :: listReplaceAux p r fuel xs

/-- Python `s.replace(p, r)` for a non-empty pattern `p` (the script
only replaces the fixed pattern `"origin/"`; the empty-pattern case,
unused here, is the identity). -/
def pyReplace (s p r : String) : String :=
  (listReplaceAux p.toList r.toList s.toList.length s.toList).asString

/-- The seven two-letter unmerged status codes recognized in
`PRManager.try_merge` (`line.startswith(("UU", "AA", "DD", "AU", "UA", "DU", "UD"))`). -/
def unmergedCodes : List String := ["UU", "AA", "DD", "AU", "UA", "DU", "UD"]

/-- `line.startswith(("UU", "AA", "DD", "AU", "UA", "DU", "UD"))`. -/
def isUnmergedLine (line : String) : Bool :=
  unmergedCodes.any (fun c => pyStartsWith line c)

/-- The conflicting-file collection loop of `PRManager.try_merge`:
`status --short` output is stripped, split on newlines, lines with an
unmerged code kept, and `line[3:].strip()` appended. -/
def collectConflicts (statusOut : String) : List String :=
  ((pySplit (pyStrip statusOut) '\n').filter isUnmergedLine).map
    (fun l => pyStrip (pyDrop l 3))

/-- `PRManager.try_merge(branch, target)`: checkout target (failure →
`(False, [])`), best-effort pull, trial merge `--no-commit --no-ff` of
`origin/branch` (success → `(True, [])`), otherwise collect unmerged
paths from `git status --short` (a `check=True` call: a non-zero exit
raises), abort the merge, and return `(False, paths)`. -/
def try_merge (env : GitEnv) (branch target : String) :
    PyRes (Bool × List String) × List TOp :=
  let ck := GitCmd.checkout target
  let t0 : List TOp := [⟨.git ck, none⟩]
  if (env ck).returncode ≠ 0 then
    (.ok (false, []), t0)
  else
    let t1 := t0 ++ [⟨.git (.pull "origin" target), some target⟩]
    let mc := GitCmd.mergeNoCommit ("origin/" ++ branch)
    let t2 := t1 ++ [⟨.git mc, some target⟩]
    if (env mc).returncode = 0 then
      (.ok (true, []), t2)
    else
      let st := env GitCmd.statusShort
      let t3 := t2 ++ [⟨.git .statusShort, some target⟩]
      if st.returncode ≠ 0 then
        (.exn, t3)
      else
        let conflicting := collectConflicts st.out
        let t4 := t3 ++ [⟨.git .mergeAbort, some target⟩]
        (.ok (false, conflicting), t4)

/-- An apostrophe character, as used inside the merge commit message. -/
def apos : String := String.singleton (Char.ofNat 39)

/-- The merge commit message built in `PRManager.complete_merge`. -/
def mergeMsg (branch target : String) : String :=
  "Merge branch " ++ apos ++ branch ++ apos ++ " into " ++ target

/-- `PRManager.complete_merge(branch, target)`: commit the staged merge
(failure → `False`), push `target` to `origin` (failure → `False`),
then delete the remote source branch (its failure is only a printed
warning) and return `True`.  All invocations are `check=False`.
It runs with `target` checked out (its caller just merged onto it). -/
def complete_merge (env : GitEnv) (branch target : String) :
    Bool × List TOp :=
  let cm := GitCmd.commit (mergeMsg branch target)
  let t0 : List TOp := [⟨.git cm, some target⟩]
  if (env cm).returncode ≠ 0 then
    (false, t0)
  else
    let ps := GitCmd.push "origin" target
    let t1 := t0 ++ [⟨.git ps, some target⟩]
    if (env ps).returncode ≠ 0 then
      (false, t1)
    else
      (true, t1 ++ [⟨.git (.pushDelete "origin" branch), some target⟩])

/-- The conflict-branch name `f"conflicts/{branch}"` from
`PRManager.create_conflict_branch`. -/
def conflictBranchName (branch : String) : String :=
  "conflicts/" ++ branch

/-- The fixed `resolution_instructions` list written into
`MERGE_CONFLICTS.json`. -/
def resolutionInstructions : List String :=
  ["1. Review the conflicting files listed below",
   "2. Resolve conflicts manually",
   "3. Run: git add <resolved-files>",
   "4. Run: git commit",
   "5. Push the changes",
   "6. Update the original PR or create a new one"]

/-- The `conflict_info` value serialized in
`PRManager.create_conflict_branch`. -/
def mkConflictRecord (branch target : String) (conflicts : List String) :
    ConflictRecord :=
  ⟨branch, target, conflicts, resolutionInstructions⟩

/-- `PRManager.create_conflict_branch(branch, target, conflicts)`:
create `conflicts/{branch}` at `origin/{branch}` (failure → `False`),
re-run the merge of `origin/{target}` to materialize the conflict state,
write `MERGE_CONFLICTS.json`, `git add` it, push the conflict branch
(failure → `False`), check out `target` again, and return `True`.
All invocations are `check=False`. -/
def create_conflict_branch (env : GitEnv) (branch target : String)
    (conflicts : List String) : Bool × List TOp :=
  let cb := conflictBranchName branch
  let ck := GitCmd.checkoutNew cb ("origin/" ++ branch)
  let t0 : List TOp := [⟨.git ck, none⟩]
  if (env ck).returncode ≠ 0 then
    (false, t0)
  else
    let t1 := t0 ++
      [⟨.git (.merge ("origin/" ++ target)), some cb⟩,
       ⟨.writeFile "MERGE_CONFLICTS.json"
          (mkConflictRecord branch target conflicts), some cb⟩,
       ⟨.git (.add "MERGE_CONFLICTS.json"), some cb⟩]
    let ps := GitCmd.push "origin" cb
    let t2 := t1 ++ [⟨.git ps, some cb⟩]
    if (env ps).returncode ≠ 0 then
      (false, t2)
    else
      (true, t2 ++ [⟨.git (.checkout target), some cb⟩])

/-- The per-request result dictionary built by `PRManager.process_pr`
(fields `branch`, `target`, `pr_number`, `success`, `conflicts`, and the
`status` string set before the function returns). -/
structure PRResult where
  branch : String
  target : String
  pr_number : Option Nat
  success : Bool
  conflicts : List String
  status : String
deriving Repr, DecidableEq

/-- The mutable accumulators of a `PRManager` instance
(`self.merged_prs`, `self.conflict_prs`). -/
structure ManagerState where
  merged_prs : List PRResult
  conflict_prs : List PRResult
deriving Repr, DecidableEq

/-- The state of a freshly constructed `PRManager`. -/
def initState : ManagerState := ⟨[], []⟩

/-- `PRManager.process_pr(branch, target, pr_number)`: run `try_merge`;
on success run `complete_merge` (True → status `"merged"`, appended to
`merged_prs`; False → status `"merged_with_warnings"`, appended
nowhere); on failure with a non-empty conflict list run
`create_conflict_branch` (True → status `"conflicts"`, appended to
`conflict_prs`; False → status `"failed"`); on failure with an empty
conflict list status `"failed"`.  Because the result dictionary is
appended before `result["status"]` is assigned and Python lists hold
references, the accumulated entry carries the final status. -/
def process_pr (env : GitEnv) (st : ManagerState) (branch target : String)
    (pr_number : Option Nat) :
    PyRes (PRResult × ManagerState) × List TOp :=
  match try_merge env branch target with
  | (.exn, t) => (.exn, t)
  | (.ok (success, conflicts), t) =>
    if success then
      let r2 := complete_merge env branch target
      if r2.1 then
        let res : PRResult := ⟨branch, target, pr_number, true, conflicts, "merged"⟩
        (.ok (res, { st with merged_prs := st.merged_prs ++ [res] }), t ++ r2.2)
      else
        let res : PRResult :=
          ⟨branch, target, pr_number, true, conflicts, "merged_with_warnings"⟩
        (.ok (res, st), t ++ r2.2)
    else
      if conflicts.isEmpty then
        (.ok (⟨branch, target, pr_number, false, conflicts, "failed"⟩, st), t)
      else
        let r2 := create_conflict_branch env branch target conflicts
        if r2.1 then
          let res : PRResult := ⟨branch, target, pr_number, false, conflicts, "conflicts"⟩
          (.ok (res, { st with conflict_prs := st.conflict_prs ++ [res] }), t ++ r2.2)
        else
          (.ok (⟨branch, target, pr_number, false, conflicts, "failed"⟩, st), t ++ r2.2)

/-- `PRManager.get_default_branch()`: last `/`-component of the remote
symbolic HEAD when readable, else `"main"` if `origin/main` verifies,
else `"master"` if `origin/master` verifies, else `"main"`. -/
def get_default_branch (env : GitEnv) : String :=
  let r := env (GitCmd.symbolicRef "refs/remotes/origin/HEAD")
  if r.returncode = 0 then
    (pySplit (pyStrip r.out) '/').getLastD ""
  else if (env (GitCmd.revParseVerify "origin/main")).returncode = 0 then
    "main"
  else if (env (GitCmd.revParseVerify "origin/master")).returncode = 0 then
    "master"
  else
    "main"

/-- `PRManager.get_open_prs()` (Mode C, branch-scan): on `git branch -r`
failure return `[]`; otherwise keep each stripped non-empty line that
contains `origin/` and not `->`, delete every `origin/` occurrence, and
drop the fixed names `main`, `master`, `HEAD`. -/
def get_open_prs (env : GitEnv) : List String :=
  let r := env GitCmd.branchR
  if r.returncode ≠ 0 then
    []
  else
    (pySplit (pyStrip r.out) '\n').filterMap (fun l0 =>
      let line := pyStrip l0
      if line ≠ "" && containsSub line "origin/" && !(containsSub line "->") then
        let b := pyReplace line "origin/" ""
        if ["main", "master", "HEAD"].contains b then none else some b
      else
        none)

/-- One element of the `prs` list handed to
`PRManager.process_all_prs`: a plain branch-name string or a dictionary
with optional `head.ref`, `branch` and `number` entries (an absent key
as well as an empty-string value are both falsy in the extraction
expression, so `none` and `some ""` both model falsy values). -/
inductive PRInput where
  | strInput : String → PRInput
  | dictInput : Option String → Option String → Option Nat → PRInput
deriving Repr, DecidableEq

/-- Python `a or b` on two optional strings (`None` and `""` falsy). -/
def pyOr (a b : Option String) : Option String :=
  match a with
  | some s => if s = "" then b else some s
  | none => b

/-- `pr.get("head", {}).get("ref") or pr.get("branch")` for a dictionary
entry, or the string itself for a plain entry. -/
def extractBranch : PRInput → Option String
  | .strInput s => some s
  | .dictInput headRef br _ => pyOr headRef br

/-- The `if branch:` truthiness guard: `None` and `""` are skipped. -/
def truthyBranch : Option String → Option String
  | some s => if s = "" then none else some s
  | none => none

/-- The `number` extracted for a `process_pr` call (`pr.get("number")`
for a dictionary, `None` for a plain branch string). -/
def extractNumber : PRInput → Option Nat
  | .strInput _ => none
  | .dictInput _ _ n => n

/-- The `for i, pr in enumerate(prs, 1)` loop body of
`PRManager.process_all_prs`: extract the branch, skip falsy ones, and
run `process_pr` on the rest, threading the manager state.  `envs i`
is the git oracle in effect for the request at position `i` (the
repository state differs between iterations, so each position gets its
own oracle).  Returns the final state and the per-request results in
processing order, or `exn` when an iteration raised. -/
def process_list (envs : Nat → GitEnv) (target : String) :
    List PRInput → Nat → ManagerState →
    PyRes (ManagerState × List PRResult)
  | [], _, st => .ok (st, [])
  | pr :: rest, i, st =>
    match truthyBranch (extractBranch pr) with
    | none => process_list envs target rest (i + 1) st
    | some b =>
      match (process_pr (envs i) st b target (extractNumber pr)).1 with
      | .exn => .exn
      | .ok (r, st') =>
        match process_list envs target rest (i + 1) st' with
        | .exn => .exn
        | .ok (stF, rs) => .ok (stF, r :: rs)

/-- `PRManager.process_all_prs(prs)`: `fetch --all --prune`
(`check=True`: a non-zero exit raises), detect the default target
branch, then process every entry in order.  `genv` answers the global
(pre-loop) invocations, `envs i` the invocations of iteration `i`. -/
def process_all_prs (genv : GitEnv) (envs : Nat → GitEnv)
    (prs : List PRInput) : PyRes (ManagerState × List PRResult) :=
  if (genv GitCmd.fetchAll).returncode ≠ 0 then
    .exn
  else
    process_list envs (get_default_branch genv) prs 0 initState

/-- The command-line arguments of `pr_manager.py`'s `main` that decide
its control flow.  `prData = some l` models `--pr-data FILE` given with
`l` the parsed JSON contents; `branches = some bs` models `--branches`
given (argparse guarantees at least one name, but the model keeps the
Python truthiness test, under which an empty list falls through). -/
structure PMArgs where
  prData : Option (List PRInput)
  branches : Option (List String)
  dryRun : Bool

/-- The work list `pr_manager.main` settles on before the no-work test:
`--pr-data` contents win, else truthy `--branches`, else `none`
(auto-detect). -/
def pmWork (args : PMArgs) : Option (List PRInput) :=
  match args.prData with
  | some l => some l
  | none =>
    match args.branches with
    | some bs => if bs.isEmpty then none else some (bs.map PRInput.strInput)
    | none => none

/-- `pr_manager.py main()`: choose the work list; with none chosen,
auto-detect via `get_open_prs` and return `1` when that is empty too;
in dry-run mode return `0` without processing; otherwise run
`process_all_prs` and return `0`. -/
def pm_main (args : PMArgs) (genv : GitEnv) (envs : Nat → GitEnv) :
    PyRes Int :=
  let go : List PRInput → PyRes Int := fun prs =>
    if args.dryRun then .ok 0
    else
      match process_all_prs genv envs prs with
      | .exn => .exn
      | .ok _ => .ok 0
  match pmWork args with
  | some prs => go prs
  | none =>
    let auto := get_open_prs genv
    if auto.isEmpty then .ok 1 else go (auto.map PRInput.strInput)

/-- One record returned by the hosting-platform query
(`gh pr list --json number,title,headRefName,baseRefName,state`). -/
structure GhPR where
  number : Option Nat
  title : String
  headRefName : Option String
  baseRefName : Option String
deriving Repr, DecidableEq

/-- Outcome of the `subprocess.run(["gh", ...], check=True)` call in
`manage_prs.get_github_prs`: the executable may be absent
(`FileNotFoundError`), or the process completes with an exit code
(non-zero raises `subprocess.CalledProcessError`, covering auth and
network failures) and, on success, a parsed JSON payload. -/
inductive GhRun where
  | toolMissing : GhRun
  | completed : Int → List GhPR → GhRun
deriving Repr, DecidableEq

/-- `manage_prs.get_github_prs(owner, repo)`: both the missing-tool and
the non-zero-exit exceptions are caught and yield `[]`; a zero exit
yields the parsed payload. -/
def get_github_prs : GhRun → List GhPR
  | .toolMissing => []
  | .completed rc payload => if rc ≠ 0 then [] else payload

/-- The `if current_branch and branch == current_branch` skip test of
`manage_prs.main` (`current_branch` is `None` when `--exclude-current`
is absent or the rev-parse failed; an empty string is also falsy). -/
def skipsCurrent (current : Option String) (branch : Option String) : Bool :=
  match current with
  | none => false
  | some c => if c = "" then false else branch == some c

/-- The explicit-branches work list of `manage_prs.main`: each
non-skipped name becomes `{"headRefName": b, "branch": b}` — a
dictionary with no `head` key and no `number`. -/
def manageBranchList (current : Option String) (bs : List String) :
    List PRInput :=
  bs.filterMap (fun b =>
    if skipsCurrent current (some b) then none
    else some (PRInput.dictInput none (some b) none))

/-- The API-backed work list of `manage_prs.main`: each non-skipped gh
record becomes a dictionary with `number`, `branch` and `head.ref` all
from `headRefName`. -/
def manageGhList (current : Option String) (gh : List GhPR) :
    List PRInput :=
  gh.filterMap (fun pr =>
    if skipsCurrent current pr.headRefName then none
    else some (PRInput.dictInput pr.headRefName pr.headRefName pr.number))

/-- `manage_prs.py main()`: with truthy `--branches` build the explicit
work list; otherwise query the platform and return `1` when it yields
nothing; with an empty work list return `0`; otherwise run
`process_all_prs` and return `0`. -/
def manage_main (branchesArg : Option (List String))
    (current : Option String) (gh : GhRun) (genv : GitEnv)
    (envs : Nat → GitEnv) : PyRes Int :=
  let finish : List PRInput → PyRes Int := fun prs =>
    if prs.isEmpty then .ok 0
    else
      match process_all_prs genv envs prs with
      | .exn => .exn
      | .ok _ => .ok 0
  let branchesT : Option (List String) :=
    match branchesArg with
    | some bs => if bs.isEmpty then none else some bs
    | none => none
  match branchesT with
  | some bs => finish (manageBranchList current bs)
  | none =>
    let ghPrs := get_github_prs gh
    if ghPrs.isEmpty then .ok 1
    else finish (manageGhList current ghPrs)

/-- An operation that changes the tip of branch `t`: a commit-creating
command (`git commit`, or a plain `git merge`, which commits on
success) run while `t` is checked out, or a remote update of `t`
(`git push origin t` / `git push origin --delete t`).  The best-effort
`git pull` synchronization and the `--no-commit` trial merge are not
modifications in this sense. -/
def modifiesTargetTip (t : String) (a : TOp) : Prop :=
  match a.op with
  | .git (.commit _) => a.current = some t
  | .git (.merge _) => a.current = some t
  | .git (.push _ r) => r = t
  | .git (.pushDelete _ r) => r = t
  | _ => False

/-- The environment conditions under which `try_merge` does not report
success: the target checkout fails, or the `--no-commit` trial merge
exits non-zero (the Conflicted, Failed and raising paths). -/
def notCleanEnv (env : GitEnv) (branch target : String) : Prop :=
  (env (GitCmd.checkout target)).returncode ≠ 0 ∨
  (env (GitCmd.mergeNoCommit ("origin/" ++ branch))).returncode ≠ 0

/-- Number of per-request results carrying a given `status` string. -/
def countStatus (s : String) (rs : List PRResult) : Nat :=
  (rs.filter (fun r => r.status == s)).length

/-- Whether a traced operation is a `git commit` invocation. -/
def isCommitCmd (a : TOp) : Bool :=
  match a.op with
  | .git (.commit _) => true
  | _ => false

/-- Spec-side description of the amended Mode C result, written from the
amended claim's words: from the branch-listing output, keep each
stripped non-empty line that names a remote-tracking branch under
`origin/` and is not a symbolic-pointer line (containing `->`), take
the branch name by deleting the `origin/` occurrences, and exclude the
three fixed names `main`, `master` and `HEAD`. -/
def specModeC (out : String) : List String :=
  (pySplit (pyStrip out) '\n').filterMap (fun l0 =>
    let line := pyStrip l0
    if line = "" then none
    else if !(containsSub line "origin/") then none
    else if containsSub line "->" then none
    else
      let b := pyReplace line "origin/" ""
      if b = "main" ∨ b = "master" ∨ b = "HEAD" then none else some b)

/-- Oracle for a run whose trial merge conflicts on `README.md` and
whose conflict-branch creation and push both succeed (the re-run merge
on the conflict branch conflicts again, as `check=False` tolerates). -/
def envConflictRun : GitEnv := fun c =>
  match c with
  | .mergeNoCommit _ => ⟨1, ""⟩
  | .statusShort => ⟨0, "UU README.md"⟩
  | .merge _ => ⟨1, ""⟩
  | _ => ⟨0, ""⟩

/-- Oracle for a run whose trial merge is clean and where every
subsequent invocation succeeds. -/
def envAllOk : GitEnv := fun _ => ⟨0, ""⟩

/-- Oracle for a clean trial merge whose `git push origin target`
fails. -/
def envPushFail : GitEnv := fun c =>
  match c with
  | .push _ _ => ⟨1, ""⟩
  | _ => ⟨0, ""⟩

/-- Oracle for a clean trial merge where only the deletion of the
remote source branch fails. -/
def envDeleteFail : GitEnv := fun c =>
  match c with
  | .pushDelete _ _ => ⟨1, ""⟩
  | _ => ⟨0, ""⟩

/-- Oracle for a clean trial merge whose merge commit fails. -/
def envCommitFail : GitEnv := fun c =>
  match c with
  | .commit _ => ⟨1, ""⟩
  | .symbolicRef _ => ⟨0, "refs/remotes/origin/main"⟩
  | _ => ⟨0, ""⟩

/-- Oracle for a failing trial merge whose `git status --short` also
exits non-zero (the one `check=True` call inside `try_merge`). -/
def envStatusFail : GitEnv := fun c =>
  match c with
  | .mergeNoCommit _ => ⟨1, ""⟩
  | .statusShort => ⟨1, ""⟩
  | _ => ⟨0, ""⟩

/-- Oracle for a failing trial merge with two unmerged paths and one
cleanly modified path in the status output. -/
def envTwoConflicts : GitEnv := fun c =>
  match c with
  | .mergeNoCommit _ => ⟨1, ""⟩
  | .statusShort => ⟨0, "UU a.txt\nM  b.txt\nAA c.txt"⟩
  | _ => ⟨0, ""⟩

/-- Oracle whose remote symbolic HEAD names `develop` and whose remote
branch listing holds `develop`, `feature/x` and the symbolic HEAD
pointer line. -/
def envDevelop : GitEnv := fun c =>
  match c with
  | .symbolicRef _ => ⟨0, "refs/remotes/origin/develop\n"⟩
  | .branchR => ⟨0, "  origin/develop\n  origin/feature/x\n  origin/HEAD -> origin/develop"⟩
  | _ => ⟨0, ""⟩

/-- C9: for every source branch name, `create_conflict_branch` names the
conflict branch exactly the fixed string `conflicts/` followed by the
source branch name verbatim, as a deterministic function
(`conflictBranchName`) of the source branch name alone: the branch it
creates and the branch it pushes both carry that name, whatever the
environment, target breakdown, or conflict list. -/
theorem c9_conflict_branch_naming (env : GitEnv) (b t : String)
    (cs : List String) :
    conflictBranchName b = "conflicts/" ++ b ∧
    (create_conflict_branch env b t cs).2.head? =
      some ⟨.git (.checkoutNew (conflictBranchName b) ("origin/" ++ b)), none⟩ ∧
    ((create_conflict_branch env b t cs).2.all (fun a =>
      match a.op with
      | .git (.push _ r) => r == conflictBranchName b
      | .git (.checkoutNew nm _) => nm == conflictBranchName b
      | _ => true)) = true := by
  refine ⟨rfl, ?_, ?_⟩ <;>
  · unfold create_conflict_branch
    by_cases h1 : (env (GitCmd.checkoutNew (conflictBranchName b) ("origin/" ++ b))).returncode ≠ 0
    · simp [h1]
    · by_cases h2 : (env (GitCmd.push "origin" (conflictBranchName b))).returncode ≠ 0 <;>
        simp [h1, h2]

/-- C8: every failure of the hosting-platform query (the `gh` executable
missing, or the `gh` process exiting non-zero as on auth or network
failure) makes `get_github_prs` return the empty list instead of
raising. -/
theorem c8_gh_failure_empty :
    get_github_prs GhRun.toolMissing = [] ∧
    ∀ (rc : Int) (payload : List GhPR), rc ≠ 0 →
      get_github_prs (GhRun.completed rc payload) = [] := by
  refine ⟨rfl, fun rc payload h => ?_⟩
  simp [get_github_prs, h]

/-- Witness for C8 at a concrete failing invocation. -/
theorem c8_gh_failure_empty_witness :
    get_github_prs (GhRun.completed 1 [⟨some 7, "t", some "b", some "main"⟩]) = [] :=
  c8_gh_failure_empty.2 1 [⟨some 7, "t", some "b", some "main"⟩] (by decide)

/-- C1 (code bug): on a successfully handled conflicted outcome the
script writes `MERGE_CONFLICTS.json` into the conflict branch's working
tree and stages it with `git add`, but never runs `git commit` before
(or after) pushing the conflict branch, so the pushed branch tip cannot
contain the metadata file — contradicting the spec and the repository's
own demo documentation, which list `MERGE_CONFLICTS.json` among the
files of the pushed conflict branch.  The full operation trace of the
successful conflicted path contains the write, the add and the push but
no commit invocation at all. -/
theorem c1_metadata_never_committed :
    (create_conflict_branch envConflictRun "feature/x" "main" ["README.md"]).1 = true ∧
    ((create_conflict_branch envConflictRun "feature/x" "main" ["README.md"]).2.map TOp.op) =
      [.git (.checkoutNew "conflicts/feature/x" "origin/feature/x"),
       .git (.merge "origin/main"),
       .writeFile "MERGE_CONFLICTS.json" (mkConflictRecord "feature/x" "main" ["README.md"]),
       .git (.add "MERGE_CONFLICTS.json"),
       .git (.push "origin" "conflicts/feature/x"),
       .git (.checkout "main")] ∧
    ((create_conflict_branch envConflictRun "feature/x" "main" ["README.md"]).2.all
      (fun a => !(isCommitCmd a))) = true :=
  ⟨rfl, rfl, rfl⟩

/-- C2 counterexample: with a clean trial merge, a failing
`git push origin main` ends the request with status
`"merged_with_warnings"` (the claim says Failed), and with the push
succeeding but the remote source-branch deletion failing the request
ends `"merged"` (the claim says MergedWithWarning). -/
theorem c2_counterexample :
    (process_pr envPushFail initState "f" "main" none).1 =
      .ok (⟨"f", "main", none, true, [], "merged_with_warnings"⟩, initState) ∧
    (process_pr envDeleteFail initState "f" "main" none).1 =
      .ok (⟨"f", "main", none, true, [], "merged"⟩,
        ⟨[⟨"f", "main", none, true, [], "merged"⟩], []⟩) ∧
    "merged_with_warnings" ≠ "failed" ∧
    "merged" ≠ "merged_with_warnings" :=
  ⟨rfl, rfl, by decide, by decide⟩

/-- C3 counterexample: when the trial merge reports failure but the
`git status --short` query itself exits non-zero, `try_merge` raises
(`check=True`) instead of classifying the outcome, and the in-progress
merge is not aborted: no `merge --abort` appears in the trace. -/
theorem c3_counterexample :
    (try_merge envStatusFail "f" "main").1 = PyRes.exn ∧
    ((try_merge envStatusFail "f" "main").2.all
      (fun a => !(a.op == .git .mergeAbort))) = true :=
  ⟨rfl, rfl⟩

/-- C5 counterexample: a run whose single request ends
`"merged_with_warnings"` (clean trial merge, failing merge commit)
lands in none of the three claimed buckets: the merged and conflicted
accumulators stay empty and no result has status `"failed"`, so their
union plus the failed count is `0` while one request was processed. -/
theorem c5_counterexample :
    process_all_prs envCommitFail (fun _ => envCommitFail) [PRInput.strInput "feature"] =
      .ok (initState, [⟨"feature", "main", none, true, [], "merged_with_warnings"⟩]) ∧
    initState.merged_prs.length + initState.conflict_prs.length +
      countStatus "failed" [⟨"feature", "main", none, true, [], "merged_with_warnings"⟩] = 0 ∧
    ([(⟨"feature", "main", none, true, [], "merged_with_warnings"⟩ : PRResult)]).length = 1 ∧
    (0 : Nat) ≠ 1 :=
  ⟨rfl, rfl, rfl, by decide⟩

/-- C6 counterexample: with the remote symbolic HEAD naming `develop`,
the detected default branch is `develop`, yet the branch scan returns
`develop` as well — it only excludes the fixed names `main`, `master`
and `HEAD`, not the detected default branch. -/
theorem c6_counterexample :
    get_default_branch envDevelop = "develop" ∧
    get_open_prs envDevelop = ["develop", "feature/x"] ∧
    get_default_branch envDevelop ∈ get_open_prs envDevelop :=
  ⟨rfl, rfl, by decide⟩

/-- C10: a work-list entry from which no truthy source-branch name can
be extracted is silently skipped: processing the list with the entry at
the front is literally the same computation as processing the rest (at
the shifted position), so the entry is neither merged, nor
conflict-preserved, nor recorded as failed, and no exception is
raised. -/
theorem c10_skipped_entries (envs : Nat → GitEnv) (t : String)
    (pr : PRInput) (rest : List PRInput) (i : Nat) (st : ManagerState)
    (h : truthyBranch (extractBranch pr) = none) :
    process_list envs t (pr :: rest) i st =
      process_list envs t rest (i + 1) st := by
  simp only [process_list, h]

/-- Witness for C10 at a dictionary entry whose `head.ref` is absent and
whose `branch` field is the empty string. -/
theorem c10_skipped_entries_witness :
    process_list (fun _ => envAllOk) "main"
        [PRInput.dictInput none (some "") (some 3)] 0 initState =
      process_list (fun _ => envAllOk) "main" [] 1 initState :=
  c10_skipped_entries (fun _ => envAllOk) "main"
    (PRInput.dictInput none (some "") (some 3)) [] 0 initState (by decide)

/-- Helper: each `process_pr` return classifies the request into exactly
one bucket — appended to `merged_prs` with status `"merged"`, appended
to `conflict_prs` with status `"conflicts"`, or leaving the state
unchanged with status `"failed"` or `"merged_with_warnings"` — and
records the target branch it was given. -/
theorem process_pr_step (env : GitEnv) (st : ManagerState) (b t : String)
    (n : Option Nat) (r : PRResult) (st' : ManagerState)
    (h : (process_pr env st b t n).1 = .ok (r, st')) :
    r.target = t ∧
    ((r.status = "merged" ∧ st'.merged_prs = st.merged_prs ++ [r] ∧
        st'.conflict_prs = st.conflict_prs) ∨
     (r.status = "conflicts" ∧ st'.merged_prs = st.merged_prs ∧
        st'.conflict_prs = st.conflict_prs ++ [r]) ∨
     ((r.status = "failed" ∨ r.status = "merged_with_warnings") ∧ st' = st)) := by
  unfold process_pr at h
  rcases htm : try_merge env b t with ⟨res, tr⟩
  rw [htm] at h
  cases res with
  | exn => simp at h
  | ok p =>
    rcases p with ⟨succ, confl⟩
    cases succ with
    | true =>
      by_cases hcm : (complete_merge env b t).1 <;>
      · simp only [hcm] at h
        simp at h
        obtain ⟨hr, hst⟩ := h
        subst hr
        subst hst
        simp
    | false =>
      by_cases hemp : confl.isEmpty
      · simp only [hemp] at h
        simp at h
        obtain ⟨hr, hst⟩ := h
        subst hr
        subst hst
        simp
      · by_cases hcc : (create_conflict_branch env b t confl).1 <;>
        · simp only [hemp, hcc] at h
          simp at h
          obtain ⟨hr, hst⟩ := h
          subst hr
          subst hst
          simp

/-- Helper: over a whole work list, the final accumulators are the
initial ones extended by exactly the results whose status is
`"merged"` / `"conflicts"`, every result's target is the loop's target,
and every status is one of the four emitted strings. -/
theorem process_list_summary (envs : Nat → GitEnv) (t : String) :
    ∀ (prs : List PRInput) (i : Nat) (st0 st : ManagerState)
      (rs : List PRResult),
    process_list envs t prs i st0 = .ok (st, rs) →
    st.merged_prs = st0.merged_prs ++ rs.filter (fun r => r.status == "merged") ∧
    st.conflict_prs = st0.conflict_prs ++ rs.filter (fun r => r.status == "conflicts") ∧
    (∀ r ∈ rs, r.target = t ∧
      (r.status = "merged" ∨ r.status = "conflicts" ∨ r.status = "failed" ∨
        r.status = "merged_with_warnings"))
  | [], i, st0, st, rs, h => by
    simp only [process_list] at h
    simp at h
    obtain ⟨h1, h2⟩ := h
    subst h1
    subst h2
    simp
  | pr :: rest, i, st0, st, rs, h => by
    unfold process_list at h
    cases hb : truthyBranch (extractBranch pr) with
    | none =>
      rw [hb] at h
      exact process_list_summary envs t rest (i + 1) st0 st rs h
    | some b =>
      rw [hb] at h
      dsimp only at h
      cases hp : (process_pr (envs i) st0 b t (extractNumber pr)).1 with
      | exn => rw [hp] at h; simp at h
      | ok q =>
        rcases q with ⟨r, st1⟩
        rw [hp] at h
        dsimp only at h
        cases hrest : process_list envs t rest (i + 1) st1 with
        | exn => rw [hrest] at h; simp at h
        | ok q2 =>
          rcases q2 with ⟨stF, rs'⟩
          rw [hrest] at h
          simp at h
          obtain ⟨hstF, hrs⟩ := h
          subst hstF
          subst hrs
          obtain ⟨ihm, ihc, ihall⟩ :=
            process_list_summary envs t rest (i + 1) st1 stF rs' hrest
          obtain ⟨htg, hcase⟩ :=
            process_pr_step (envs i) st0 b t (extractNumber pr) r st1 hp
          refine ⟨?_, ?_, ?_⟩
          · rcases hcase with ⟨hs, hm, _⟩ | ⟨hs, hm, _⟩ | ⟨hs, hst⟩
            · rw [ihm, hm, List.filter_cons]
              simp [hs]
            · rw [ihm, hm, List.filter_cons]
              simp [hs]
            · rw [ihm, hst, List.filter_cons]
              rcases hs with hs | hs <;> simp [hs]
          · rcases hcase with ⟨hs, _, hc⟩ | ⟨hs, _, hc⟩ | ⟨hs, hst⟩
            · rw [ihc, hc, List.filter_cons]
              simp [hs]
            · rw [ihc, hc, List.filter_cons]
              simp [hs]
            · rw [ihc, hst, List.filter_cons]
              rcases hs with hs | hs <;> simp [hs]
          · intro x hx
            rcases List.mem_cons.mp hx with hx | hx
            · subst hx
              refine ⟨htg, ?_⟩
              rcases hcase with ⟨hs, _⟩ | ⟨hs, _⟩ | ⟨hs, _⟩
              · exact Or.inl hs
              · exact Or.inr (Or.inl hs)
              · rcases hs with hs | hs
                · exact Or.inr (Or.inr (Or.inl hs))
                · exact Or.inr (Or.inr (Or.inr hs))
            · exact ihall x hx

/-- Helper: `countStatus` over a cons. -/
theorem countStatus_cons (s : String) (r : PRResult) (rest : List PRResult) :
    countStatus s (r :: rest) =
      if r.status == s then countStatus s rest + 1 else countStatus s rest := by
  simp only [countStatus, List.filter_cons]
  split <;> simp

/-- Helper: when every result's status is one of the four emitted
strings, the four per-status counts sum to the number of results. -/
theorem count_partition (rs : List PRResult)
    (h : ∀ r ∈ rs, r.status = "merged" ∨ r.status = "conflicts" ∨
      r.status = "failed" ∨ r.status = "merged_with_warnings") :
    countStatus "merged" rs + countStatus "conflicts" rs +
      countStatus "failed" rs + countStatus "merged_with_warnings" rs =
      rs.length := by
  induction rs with
  | nil => rfl
  | cons r rest ih =>
    have hr := h r (by simp)
    have hrest := ih (fun x hx => h x (by simp [hx]))
    rcases hr with h1 | h1 | h1 | h1 <;>
    · simp only [countStatus_cons, h1, List.length_cons]
      simp
      omega

/-- A per-request oracle assignment whose first request merges cleanly
and whose later requests conflict. -/
def envsMix : Nat → GitEnv := fun i => if i = 0 then envAllOk else envConflictRun

/-- C5 (amended): after a completed run, the merged accumulator holds
exactly the results with status `"merged"` and the conflicted
accumulator exactly those with status `"conflicts"` (so the two are
disjoint), and the four counts — merged, conflicted, failed, and
merged-with-warnings (the bucket the original claim omits) — sum to
the total number of processed requests. -/
theorem c5_amended (genv : GitEnv) (envs : Nat → GitEnv)
    (prs : List PRInput) (st : ManagerState) (rs : List PRResult)
    (h : process_all_prs genv envs prs = .ok (st, rs)) :
    st.merged_prs = rs.filter (fun r => r.status == "merged") ∧
    st.conflict_prs = rs.filter (fun r => r.status == "conflicts") ∧
    (∀ r ∈ st.merged_prs, r ∉ st.conflict_prs) ∧
    countStatus "merged" rs + countStatus "conflicts" rs +
      countStatus "failed" rs + countStatus "merged_with_warnings" rs =
      rs.length := by
  unfold process_all_prs at h
  by_cases hf : (genv GitCmd.fetchAll).returncode ≠ 0
  · simp [hf] at h
  · rw [if_neg hf] at h
    obtain ⟨hm, hc, hall⟩ :=
      process_list_summary envs (get_default_branch genv) prs 0 initState st rs h
    simp only [initState, List.nil_append] at hm hc
    refine ⟨hm, hc, ?_, count_partition rs (fun r hr => (hall r hr).2)⟩
    intro r hmem hmem'
    rw [hm] at hmem
    rw [hc] at hmem'
    have h1 := (List.mem_filter.mp hmem).2
    have h2 := (List.mem_filter.mp hmem').2
    rw [beq_iff_eq] at h1 h2
    rw [h1] at h2
    exact absurd h2 (by decide)

/-- Witness for C5 (amended) on a two-request run with one merged and
one conflicted result. -/
theorem c5_amended_witness :
    let r0 : PRResult := ⟨"a", "", none, true, [], "merged"⟩
    let r1 : PRResult := ⟨"b", "", none, false, ["README.md"], "conflicts"⟩
    (⟨[r0], [r1]⟩ : ManagerState).merged_prs =
      [r0, r1].filter (fun r => r.status == "merged") ∧
    (⟨[r0], [r1]⟩ : ManagerState).conflict_prs =
      [r0, r1].filter (fun r => r.status == "conflicts") ∧
    (∀ r ∈ (⟨[r0], [r1]⟩ : ManagerState).merged_prs,
      r ∉ (⟨[r0], [r1]⟩ : ManagerState).conflict_prs) ∧
    countStatus "merged" [r0, r1] + countStatus "conflicts" [r0, r1] +
      countStatus "failed" [r0, r1] + countStatus "merged_with_warnings" [r0, r1] =
      [r0, r1].length :=
  c5_amended envAllOk envsMix
    [PRInput.strInput "a", PRInput.strInput "b", PRInput.dictInput none none none]
    ⟨[⟨"a", "", none, true, [], "merged"⟩],
     [⟨"b", "", none, false, ["README.md"], "conflicts"⟩]⟩
    [⟨"a", "", none, true, [], "merged"⟩,
     ⟨"b", "", none, false, ["README.md"], "conflicts"⟩]
    (by rfl)

/-- C2 (amended): on the clean path, if committing the merge or pushing
the target branch fails, `complete_merge` reports failure and the final
status is `"merged_with_warnings"` with the request recorded in neither
accumulator (not Failed, as the claim states); if commit and push both
succeed, the final status is `"merged"` and the request joins the
merged accumulator regardless of whether the remote source-branch
deletion succeeds (not MergedWithWarning on a failed deletion, as the
claim states). -/
theorem c2_amended (env : GitEnv) (st : ManagerState) (b t : String)
    (n : Option Nat)
    (h1 : (env (GitCmd.checkout t)).returncode = 0)
    (h2 : (env (GitCmd.mergeNoCommit ("origin/" ++ b))).returncode = 0) :
    ((env (GitCmd.commit (mergeMsg b t))).returncode ≠ 0 ∨
        (env (GitCmd.push "origin" t)).returncode ≠ 0 →
      (process_pr env st b t n).1 =
        .ok (⟨b, t, n, true, [], "merged_with_warnings"⟩, st)) ∧
    ((env (GitCmd.commit (mergeMsg b t))).returncode = 0 ∧
        (env (GitCmd.push "origin" t)).returncode = 0 →
      (process_pr env st b t n).1 =
        .ok (⟨b, t, n, true, [], "merged"⟩,
          { st with
              merged_prs := st.merged_prs ++ [⟨b, t, n, true, [], "merged"⟩] })) := by
  constructor
  · intro h
    rcases h with hc | hp
    · simp [process_pr, try_merge, complete_merge, h1, h2, hc]
    · by_cases hc : (env (GitCmd.commit (mergeMsg b t))).returncode ≠ 0
      · simp [process_pr, try_merge, complete_merge, h1, h2, hc]
      · simp [process_pr, try_merge, complete_merge, h1, h2, hc, hp]
  · rintro ⟨hc, hp⟩
    simp [process_pr, try_merge, complete_merge, h1, h2, hc, hp]

/-- Witness for C2 (amended) on an environment where every git
invocation succeeds. -/
theorem c2_amended_witness :
    (process_pr envAllOk initState "f" "main" none).1 =
      .ok (⟨"f", "main", none, true, [], "merged"⟩,
        { initState with
            merged_prs :=
              initState.merged_prs ++ [⟨"f", "main", none, true, [], "merged"⟩] }) :=
  (c2_amended envAllOk initState "f" "main" none (by decide) (by decide)).2
    ⟨by decide, by decide⟩

/-- C3 (amended): whenever the trial merge reports failure and the
status query itself succeeds, `try_merge` returns `(False, paths)`
where `paths` collects exactly the status lines starting with one of
the seven unmerged codes (each line's first three characters removed
and the rest stripped), the in-progress merge is aborted, and the path
list is non-empty — i.e. the outcome is Conflicted rather than Failed —
iff at least one status line is in an unmerged state.  (The amendment
to the original claim: the status query must itself succeed; when it
exits non-zero the exception propagates and no abort happens, per the
counterexample.) -/
theorem c3_amended (env : GitEnv) (b t : String)
    (h1 : (env (GitCmd.checkout t)).returncode = 0)
    (h2 : (env (GitCmd.mergeNoCommit ("origin/" ++ b))).returncode ≠ 0)
    (h3 : (env GitCmd.statusShort).returncode = 0) :
    (try_merge env b t).1 =
      .ok (false, collectConflicts (env GitCmd.statusShort).out) ∧
    (⟨.git .mergeAbort, some t⟩ : TOp) ∈ (try_merge env b t).2 ∧
    collectConflicts (env GitCmd.statusShort).out =
      ((pySplit (pyStrip (env GitCmd.statusShort).out) '\n').filter
        (fun l => unmergedCodes.any (fun c => pyStartsWith l c))).map
        (fun l => pyStrip (pyDrop l 3)) ∧
    (collectConflicts (env GitCmd.statusShort).out ≠ [] ↔
      ∃ l ∈ pySplit (pyStrip (env GitCmd.statusShort).out) '\n',
        isUnmergedLine l = true) := by
  refine ⟨?_, ?_, rfl, ?_⟩
  · simp [try_merge, h1, h2, h3]
  · simp [try_merge, h1, h2, h3]
  · simp only [collectConflicts, ne_eq, List.map_eq_nil_iff, List.filter_eq_nil_iff]
    push_neg
    constructor
    · rintro ⟨l, hl, hu⟩
      exact ⟨l, hl, hu⟩
    · rintro ⟨l, hl, hu⟩
      exact ⟨l, hl, hu⟩

/-- Witness for C3 (amended) on a status output with two unmerged and
one cleanly modified path. -/
theorem c3_amended_witness :
    (try_merge envTwoConflicts "f" "main").1 =
      PyRes.ok (false, ["a.txt", "c.txt"]) ∧
    (⟨.git .mergeAbort, some "main"⟩ : TOp) ∈ (try_merge envTwoConflicts "f" "main").2 := by
  have h := c3_amended envTwoConflicts "f" "main" (by decide) (by decide) (by decide)
  exact ⟨by rw [h.1]; rfl, h.2.1⟩

/-- Helper: no operation in any `try_merge` trace changes any branch
tip in the `modifiesTargetTip` sense — the function only checks out,
pulls, trial-merges with `--no-commit`, queries status, and aborts. -/
theorem try_merge_no_target_mod (env : GitEnv) (b t : String) :
    ∀ a ∈ (try_merge env b t).2, ¬ modifiesTargetTip t a := by
  intro a ha
  by_cases h1 : (env (GitCmd.checkout t)).returncode ≠ 0
  · simp [try_merge, h1] at ha
    subst ha
    simp [modifiesTargetTip]
  · by_cases h2 : (env (GitCmd.mergeNoCommit ("origin/" ++ b))).returncode = 0
    · simp [try_merge, h1, h2] at ha
      rcases ha with ha | ha | ha <;> subst ha <;> simp [modifiesTargetTip]
    · by_cases h3 : (env GitCmd.statusShort).returncode ≠ 0
      · simp [try_merge, h1, h2, h3] at ha
        rcases ha with ha | ha | ha | ha <;> subst ha <;> simp [modifiesTargetTip]
      · simp [try_merge, h1, h2, h3] at ha
        rcases ha with ha | ha | ha | ha | ha <;> subst ha <;>
          simp [modifiesTargetTip]

/-- Helper: when the conflict-namespace name differs from the target,
no operation in a `create_conflict_branch` trace changes the target's
tip: its commit-creating merge runs with the conflict branch checked
out, and its push and checkout refer to the conflict branch and the
target checkout respectively. -/
theorem conflict_branch_no_target_mod (env : GitEnv) (b t : String)
    (cs : List String) (hn : conflictBranchName b ≠ t) :
    ∀ a ∈ (create_conflict_branch env b t cs).2, ¬ modifiesTargetTip t a := by
  intro a ha
  by_cases h1 :
      (env (GitCmd.checkoutNew (conflictBranchName b) ("origin/" ++ b))).returncode ≠ 0
  · simp [create_conflict_branch, h1] at ha
    subst ha
    simp [modifiesTargetTip]
  · by_cases h2 : (env (GitCmd.push "origin" (conflictBranchName b))).returncode ≠ 0
    · simp [create_conflict_branch, h1, h2] at ha
      rcases ha with ha | ha | ha | ha | ha <;> subst ha <;>
        simp [modifiesTargetTip, hn]
    · simp [create_conflict_branch, h1, h2] at ha
      rcases ha with ha | ha | ha | ha | ha | ha <;> subst ha <;>
        simp [modifiesTargetTip, hn]

/-- C4: for a request whose outcome is not Clean (checkout or trial
merge fails: the Conflicted, Failed and raising paths), no operation
performed by `process_pr` modifies the target branch's tip — no commit
or commit-creating merge runs with the target checked out, and no push
or push-deletion names the target — provided the conflict namespace
does not collide with the target name.  Only the finalize step of a
Clean outcome (`complete_merge`) commits to or pushes the target. -/
theorem c4_target_untouched (env : GitEnv) (st : ManagerState)
    (b t : String) (n : Option Nat)
    (hn : conflictBranchName b ≠ t)
    (hc : notCleanEnv env b t) :
    ∀ a ∈ (process_pr env st b t n).2, ¬ modifiesTargetTip t a := by
  intro a ha
  by_cases hck : (env (GitCmd.checkout t)).returncode ≠ 0
  · have he : try_merge env b t =
        (.ok (false, []), [⟨.git (.checkout t), none⟩]) := by
      simp [try_merge, hck]
    unfold process_pr at ha
    rw [he] at ha
    simp at ha
    subst ha
    simp [modifiesTargetTip]
  · have hmg : (env (GitCmd.mergeNoCommit ("origin/" ++ b))).returncode ≠ 0 := by
      rcases hc with h | h
      · exact absurd h hck
      · exact h
    have htr := try_merge_no_target_mod env b t
    by_cases hst : (env GitCmd.statusShort).returncode ≠ 0
    · have he : (try_merge env b t).1 = .exn := by
        simp [try_merge, hck, hmg, hst]
      unfold process_pr at ha
      rcases htm : try_merge env b t with ⟨res, tr⟩
      rw [htm] at ha he
      simp at he
      subst he
      dsimp only at ha
      refine htr a ?_
      rw [htm]
      exact ha
    · have he : (try_merge env b t).1 =
          .ok (false, collectConflicts (env GitCmd.statusShort).out) := by
        simp [try_merge, hck, hmg, hst]
      unfold process_pr at ha
      rcases htm : try_merge env b t with ⟨res, tr⟩
      rw [htm] at ha he
      simp at he
      subst he
      dsimp only at ha
      have htr' : ∀ x ∈ tr, ¬ modifiesTargetTip t x := by
        intro x hx
        refine htr x ?_
        rw [htm]
        exact hx
      by_cases hemp : (collectConflicts (env GitCmd.statusShort).out).isEmpty
      · simp only [hemp] at ha
        simp at ha
        exact htr' a ha
      · simp only [hemp] at ha
        by_cases hcc :
            (create_conflict_branch env b t
              (collectConflicts (env GitCmd.statusShort).out)).1 <;>
        · simp only [hcc] at ha
          simp at ha
          rcases ha with ha | ha
          · exact htr' a ha
          · exact conflict_branch_no_target_mod env b t
              (collectConflicts (env GitCmd.statusShort).out) hn a ha

/-- Witness for C4 on a concrete conflicted run. -/
theorem c4_target_untouched_witness :
    conflictBranchName "feature/x" ≠ "main" ∧
    notCleanEnv envConflictRun "feature/x" "main" ∧
    ∀ a ∈ (process_pr envConflictRun initState "feature/x" "main" none).2,
      ¬ modifiesTargetTip "main" a :=
  ⟨by decide, Or.inr (by decide),
    c4_target_untouched envConflictRun initState "feature/x" "main" none
      (by decide) (Or.inr (by decide))⟩

/-- C6 (amended): the branch scan returns exactly the stripped
branch-listing lines that mention `origin/` and are not symbolic
pointers, with `origin/` deleted, minus the three fixed names `main`,
`master` and `HEAD` (the amendment: the fixed names, not the detected
default branch, are what is excluded, per the counterexample); none of
the fixed names is ever returned; and every processed request's target
is the detected default branch. -/
theorem c6_amended (env genv : GitEnv) (envs : Nat → GitEnv)
    (prs : List PRInput) (st : ManagerState) (rs : List PRResult)
    (hb : (env GitCmd.branchR).returncode = 0)
    (hp : process_all_prs genv envs prs = .ok (st, rs)) :
    get_open_prs env = specModeC (env GitCmd.branchR).out ∧
    (∀ x ∈ get_open_prs env, x ≠ "main" ∧ x ≠ "master" ∧ x ≠ "HEAD") ∧
    (∀ r ∈ rs, r.target = get_default_branch genv) := by
  refine ⟨?_, ?_, ?_⟩
  · unfold get_open_prs specModeC
    rw [if_neg (by simp [hb])]
    apply List.filterMap_congr
    intro l0 _
    by_cases c1 : pyStrip l0 = ""
    · simp [c1]
    · by_cases c2 : containsSub (pyStrip l0) "origin/"
      · by_cases c3 : containsSub (pyStrip l0) "->"
        · simp [c1, c2, c3]
        · simp [c1, c2, c3, List.contains_eq_any_beq]
      · simp [c1, c2]
  · intro x hx
    unfold get_open_prs at hx
    rw [if_neg (by simp [hb])] at hx
    rw [List.mem_filterMap] at hx
    obtain ⟨l0, _, hf⟩ := hx
    dsimp only at hf
    split at hf
    · split at hf
      · exact absurd hf (by simp)
      · rename_i hcon
        rw [Option.some.injEq] at hf
        subst hf
        simp only [List.contains_eq_any_beq, List.any_cons, List.any_nil,
          Bool.or_false, Bool.or_eq_true, beq_iff_eq] at hcon
        push_neg at hcon
        exact hcon
    · exact absurd hf (by simp)
  · unfold process_all_prs at hp
    by_cases hf : (genv GitCmd.fetchAll).returncode ≠ 0
    · simp [hf] at hp
    · rw [if_neg hf] at hp
      intro r hr
      exact ((process_list_summary envs (get_default_branch genv) prs 0 initState
        st rs hp).2.2 r hr).1

/-- Witness for C6 (amended) on the `develop` environment and an empty
processed run. -/
theorem c6_amended_witness :
    get_open_prs envDevelop = specModeC (envDevelop GitCmd.branchR).out ∧
    (∀ x ∈ get_open_prs envDevelop, x ≠ "main" ∧ x ≠ "master" ∧ x ≠ "HEAD") ∧
    (∀ r ∈ ([] : List PRResult), r.target = get_default_branch envAllOk) :=
  c6_amended envDevelop envAllOk (fun _ => envAllOk) [] initState []
    (by decide) (by rfl)

/-- Helper: an empty work choice means no `--pr-data` and no truthy
`--branches`. -/
theorem pmWork_none (args : PMArgs) (h : pmWork args = none) :
    args.prData = none ∧ (args.branches = none ∨ args.branches = some []) := by
  unfold pmWork at h
  cases hd : args.prData with
  | some l => rw [hd] at h; simp at h
  | none =>
    rw [hd] at h
    cases hb : args.branches with
    | none => exact ⟨rfl, Or.inl rfl⟩
    | some bs =>
      rw [hb] at h
      dsimp only at h
      by_cases he : bs.isEmpty
      · rw [List.isEmpty_iff] at he
        exact ⟨rfl, Or.inr (by rw [he])⟩
      · simp [he] at h

/-- C7: both entry points return `0` on every completed run whatever
the per-branch outcomes, and return the non-zero code `1` only when no
work could be determined: for `pr_manager.main`, no `--pr-data`, no
truthy `--branches`, and an empty branch scan (and conversely that
situation always yields `1`); for `manage_prs.main`, no truthy
`--branches` and an empty platform query. -/
theorem c7_exit_codes :
    (∀ (args : PMArgs) (genv : GitEnv) (envs : Nat → GitEnv) (rc : Int),
      pm_main args genv envs = .ok rc →
      rc = 0 ∨ (rc = 1 ∧ args.prData = none ∧
        (args.branches = none ∨ args.branches = some []) ∧
        get_open_prs genv = [])) ∧
    (∀ (args : PMArgs) (genv : GitEnv) (envs : Nat → GitEnv),
      pmWork args = none → get_open_prs genv = [] →
      pm_main args genv envs = .ok 1) ∧
    (∀ (bs : Option (List String)) (cur : Option String) (gh : GhRun)
       (genv : GitEnv) (envs : Nat → GitEnv) (rc : Int),
      manage_main bs cur gh genv envs = .ok rc →
      rc = 0 ∨ (rc = 1 ∧ (bs = none ∨ bs = some []) ∧
        get_github_prs gh = [])) := by
  refine ⟨?_, ?_, ?_⟩
  · intro args genv envs rc h
    unfold pm_main at h
    cases hw : pmWork args with
    | some prs =>
      rw [hw] at h
      dsimp only at h
      left
      by_cases hd : args.dryRun
      · simp [hd] at h
        omega
      · simp only [hd, if_false, Bool.false_eq_true] at h
        cases hpa : process_all_prs genv envs prs with
        | exn => rw [hpa] at h; simp at h
        | ok v => rw [hpa] at h; simp at h; omega
    | none =>
      rw [hw] at h
      dsimp only at h
      by_cases hauto : (get_open_prs genv).isEmpty
      · rw [if_pos hauto] at h
        simp at h
        obtain ⟨h0, h1⟩ := pmWork_none args hw
        rw [List.isEmpty_iff] at hauto
        exact Or.inr ⟨by omega, h0, h1, hauto⟩
      · rw [if_neg hauto] at h
        left
        by_cases hd : args.dryRun
        · simp [hd] at h
          omega
        · simp only [hd, if_false, Bool.false_eq_true] at h
          cases hpa : process_all_prs genv envs
              ((get_open_prs genv).map PRInput.strInput) with
          | exn => rw [hpa] at h; simp at h
          | ok v => rw [hpa] at h; simp at h; omega
  · intro args genv envs hw hauto
    unfold pm_main
    rw [hw]
    dsimp only
    rw [if_pos (by rw [hauto]; rfl)]
  · intro bs cur gh genv envs rc h
    unfold manage_main at h
    dsimp only at h
    have finish_zero : ∀ (prs : List PRInput),
        (if prs.isEmpty then (.ok 0 : PyRes Int)
         else match process_all_prs genv envs prs with
           | .exn => .exn
           | .ok _ => .ok 0) = .ok rc → rc = 0 := by
      intro prs hf
      by_cases he : prs.isEmpty
      · rw [if_pos he] at hf
        simp at hf
        omega
      · rw [if_neg he] at hf
        cases hpa : process_all_prs genv envs prs with
        | exn => rw [hpa] at hf; simp at hf
        | ok v => rw [hpa] at hf; simp at hf; omega
    cases bs with
    | some l =>
      by_cases he : l.isEmpty
      · simp only [he, if_true] at h
        by_cases hg : (get_github_prs gh).isEmpty
        · rw [if_pos hg] at h
          simp at h
          rw [List.isEmpty_iff] at he hg
          exact Or.inr ⟨by omega, Or.inr (by rw [he]), hg⟩
        · rw [if_neg hg] at h
          exact Or.inl (finish_zero _ h)
      · simp only [he, if_false, Bool.false_eq_true] at h
        exact Or.inl (finish_zero _ h)
    | none =>
      dsimp only at h
      by_cases hg : (get_github_prs gh).isEmpty
      · rw [if_pos hg] at h
        simp at h
        rw [List.isEmpty_iff] at hg
        exact Or.inr ⟨by omega, Or.inl rfl, hg⟩
      · rw [if_neg hg] at h
        exact Or.inl (finish_zero _ h)

/-- Witness for C7: a run with explicit branches and a conflicted
outcome still exits `0`, and a run with nothing to do exits `1`. -/
theorem c7_exit_codes_witness :
    ((0 : Int) = 0 ∨ ((0 : Int) = 1 ∧
      (⟨none, some ["feature/x"], false⟩ : PMArgs).prData = none ∧
      ((⟨none, some ["feature/x"], false⟩ : PMArgs).branches = none ∨
        (⟨none, some ["feature/x"], false⟩ : PMArgs).branches = some []) ∧
      get_open_prs envConflictRun = [])) ∧
    pm_main ⟨none, none, false⟩ envAllOk (fun _ => envAllOk) = .ok 1 :=
  ⟨c7_exit_codes.1 ⟨none, some ["feature/x"], false⟩ envConflictRun
      (fun _ => envConflictRun) 0 (by rfl),
    c7_exit_codes.2.1 ⟨none, none, false⟩ envAllOk (fun _ => envAllOk)
      (by rfl) (by rfl)⟩
